import Mathlib

/-!
Verification of the notification-delivery pipeline of the stage-4-hng
repository: the template renderer (`app/utils/renderer.py`), the template
store with its versioning and translation logic
(`app/services/template_service.py`), the queue consumers of the email and
push services (`app/workers/queue_consumer.py`), and the circuit-breaker
publisher (`app/utils/rabbitmq.py`).  Python code is shallowly embedded as
executable Lean functions; database rows become lists, SQLAlchemy
`.first()` queries become `List.find?` over insertion order, and Python
exceptions become explicit result constructors.
-/

namespace Pipeline

/-! ## Renderer (`app/utils/renderer.py`)

The renderer extracts `{{variable}}` placeholders with the regex
`\{\{\s*([a-zA-Z_][a-zA-Z0-9_]*)\s*\}\}` and renders with a Jinja2
`Environment` constructed WITHOUT `undefined=StrictUndefined`, so a
missing variable renders as the empty string.  We model the flat
variable-substitution fragment: both the regex scan and Jinja2's lexer
advance left to right, and on strings where every `{{` opens a
well-formed flat placeholder (`flatOnly` below) they agree. -/

/-- ASCII whitespace accepted by the regex class `\s` and by Jinja2
between the braces and the identifier. -/
def isSpc (c : Char) : Bool :=
  c = ' ' || c = '\t' || c = '\n' || c = '\r' || c = '\x0b' || c = '\x0c'

/-- First character of a placeholder identifier: `[a-zA-Z_]`. -/
def isIdStart (c : Char) : Bool :=
  ('a' ≤ c && c ≤ 'z') || ('A' ≤ c && c ≤ 'Z') || c = '_'

/-- Subsequent characters of a placeholder identifier: `[a-zA-Z0-9_]`. -/
def isIdChar (c : Char) : Bool :=
  isIdStart c || ('0' ≤ c && c ≤ '9')

/-- Reads an identifier (`[a-zA-Z_][a-zA-Z0-9_]*`) off the front of the
input, returning it and the remaining input. -/
def takeId (l : List Char) : Option (String × List Char) :=
  match l with
  | [] => none
  | c :: r =>
    if isIdStart c then
      some (String.mk (c :: r.takeWhile isIdChar), r.dropWhile isIdChar)
    else none

/-- Helper for matching the closing `}}` of a placeholder. -/
def closeBraces (v : String) (l : List Char) : Option (String × List Char) :=
  match l with
  | c1 :: c2 :: l3 => if c1 = '}' && c2 = '}' then some (v, l3) else none
  | _ => none

/-- Given the input just after an opening `{{`, matches
`\s*identifier\s*}}` and returns the identifier and the input after the
closing braces. -/
def matchPH (l : List Char) : Option (String × List Char) :=
  (takeId (l.dropWhile isSpc)).bind (fun p => closeBraces p.1 (p.2.dropWhile isSpc))

theorem length_dropWhile_le_len (p : Char → Bool) (l : List Char) :
    (l.dropWhile p).length ≤ l.length := by
  induction l with
  | nil => simp [List.dropWhile]
  | cons c t ih =>
    simp only [List.dropWhile]
    split
    · simp; omega
    · simp

theorem takeId_length {l : List Char} {v : String} {r : List Char}
    (h : takeId l = some (v, r)) : r.length ≤ l.length := by
  cases l with
  | nil => simp [takeId] at h
  | cons c t =>
    simp only [takeId] at h
    split at h
    · simp only [Option.some.injEq, Prod.mk.injEq] at h
      have h2 := h.2
      subst h2
      have := length_dropWhile_le_len isIdChar t
      simp
      omega
    · exact absurd h (by simp)

theorem closeBraces_length {v v2 : String} {l r : List Char}
    (h : closeBraces v l = some (v2, r)) : r.length ≤ l.length := by
  cases l with
  | nil => simp [closeBraces] at h
  | cons c1 t =>
    cases t with
    | nil => simp [closeBraces] at h
    | cons c2 t2 =>
      simp only [closeBraces] at h
      split at h
      · simp only [Option.some.injEq, Prod.mk.injEq] at h
        have h2 := h.2
        subst h2
        simp only [List.length_cons]
        omega
      · exact absurd h (by simp)

theorem matchPH_length {l : List Char} {v : String} {r : List Char}
    (h : matchPH l = some (v, r)) : r.length ≤ l.length := by
  simp only [matchPH] at h
  cases hid : takeId (l.dropWhile isSpc) with
  | none => rw [hid] at h; simp at h
  | some p =>
    rw [hid] at h
    replace h : closeBraces p.1 (p.2.dropWhile isSpc) = some (v, r) := h
    have h1 : p.2.length ≤ l.length := by
      have : p.2.length ≤ (l.dropWhile isSpc).length :=
        @takeId_length (l.dropWhile isSpc) p.1 p.2 (by rw [hid])
      have := length_dropWhile_le_len isSpc l
      omega
    have h2 := closeBraces_length h
    have h3 := length_dropWhile_le_len isSpc p.2
    omega

/-- A scanned template piece: a literal character, or a `{{variable}}`
placeholder.  Both the extraction regex and the Jinja2 lexer scan left to
right; on the flat fragment they produce the same decomposition. -/
inductive Tok where
  | lit : Char → Tok
  | var : String → Tok
deriving DecidableEq, Repr

/-- Fuel-indexed scanner: at each position, an opening `{{` followed by a
well-formed placeholder becomes a `Tok.var`; any other character is a
literal.  Fuel at least the input length fully scans the input. -/
def tokenizeF : Nat → List Char → List Tok
  | 0, _ => []
  | _ + 1, [] => []
  | f + 1, c :: rest =>
    if c = '{' then
      match rest with
      | c2 :: rest2 =>
        if c2 = '{' then
          match matchPH rest2 with
          | some (v, r) => .var v :: tokenizeF f r
          | none => .lit c :: tokenizeF f rest
        else .lit c :: tokenizeF f rest
      | [] => .lit c :: tokenizeF f rest
    else .lit c :: tokenizeF f rest

/-- Scans a character list into literal/placeholder tokens. -/
def tokenize (l : List Char) : List Tok := tokenizeF l.length l

/-- The placeholder names of a token list, in scan order with repeats. -/
def tokVars (toks : List Tok) : List String :=
  toks.filterMap (fun t => match t with | .var v => some v | .lit _ => none)

/-- Embeds `TemplateRenderer.extract_variables`: the distinct placeholder
names found by `re.findall` of `\{\{\s*([a-zA-Z_][a-zA-Z0-9_]*)\s*\}\}`.
Python returns `list(set(...))` whose order is implementation-defined; we
keep one occurrence of each name (`List.dedup`), which is equal as a set. -/
def extract_variables (s : String) : List String :=
  (tokVars (tokenize s.data)).dedup

/-- The keys of a Python dict, modelled as an association list (a dict
has no duplicate keys; lookup takes the first binding). -/
def keysOf (data : List (String × String)) : List String :=
  data.map Prod.fst

/-- Embeds `TemplateRenderer.validate_variables`: missing variables are
the extracted ones not among the data's keys, in extraction order; the
boolean is `len(missing) == 0`. -/
def validate_variables (s : String) (data : List (String × String)) :
    Bool × List String :=
  let required_vars := extract_variables s
  let missing_vars := required_vars.filter (fun v => !((keysOf data).contains v))
  (missing_vars.isEmpty, missing_vars)

/-- Embeds `TemplateRenderer.render` on the flat-placeholder fragment.
The Jinja2 `Environment` is built without `undefined=StrictUndefined`,
so a placeholder absent from `data` renders as the default `Undefined`,
i.e. the empty string; no exception is raised for it. -/
def render (s : String) (data : List (String × String)) : String :=
  String.join ((tokenize s.data).map (fun t =>
    match t with
    | .lit c => String.mk [c]
    | .var v => (data.lookup v).getD ""))

/-- The flat-placeholder fragment: every `{{` opens a well-formed
`{{ identifier }}` placeholder and no `{%`/`{#` Jinja2 constructs occur,
so Jinja2 parses the string exactly into literals and flat variable
substitutions and `render` models it. -/
def flatOnlyF : Nat → List Char → Bool
  | 0, l => l.isEmpty
  | _ + 1, [] => true
  | f + 1, c :: rest =>
    if c = '{' then
      match rest with
      | c2 :: rest2 =>
        if c2 = '{' then
          match matchPH rest2 with
          | some (_, r) => flatOnlyF f r
          | none => false
        else if c2 = '%' || c2 = '#' then false
        else flatOnlyF f rest
      | [] => true
    else flatOnlyF f rest

/-- Whether a template string lies in the flat-placeholder fragment. -/
def flatOnly (s : String) : Bool := flatOnlyF s.data.length s.data

example : extract_variables "Hello {{name}}!" = ["name"] := by decide

example : render "Hello {{name}}!" [("name", "John")] = "Hello John!" := by decide

example : render "Hello {{name}}!" [] = "Hello !" := by decide

example : validate_variables "Hello {{name}}!" [] = (false, ["name"]) := by decide

example : flatOnly "Hello {{name}}!" = true := by decide

example : flatOnly "Hello \x7b\x7b" = false := by decide

/-! ### Renderer lemmas -/

theorem mem_extract_iff_mem_tokVars {v : String} {s : String} :
    v ∈ extract_variables s ↔ v ∈ tokVars (tokenize s.data) := by
  simp [extract_variables, List.mem_dedup]

theorem lookup_append (d1 d2 : List (String × String)) (v : String) :
    (d1 ++ d2).lookup v =
      match d1.lookup v with
      | some x => some x
      | none => d2.lookup v := by
  induction d1 with
  | nil => simp [List.lookup]
  | cons p t ih =>
    obtain ⟨k, val⟩ := p
    by_cases h : v = k
    · subst h
      simp [List.lookup]
    · have hb : (v == k) = false := beq_false_of_ne h
      simp only [List.cons_append, List.lookup, hb]
      exact ih

theorem lookup_eq_none_iff {d : List (String × String)} {v : String} :
    d.lookup v = none ↔ v ∉ keysOf d := by
  induction d with
  | nil => simp [List.lookup, keysOf]
  | cons p t ih =>
    obtain ⟨k, val⟩ := p
    by_cases h : v = k
    · subst h
      simp [List.lookup, keysOf]
    · have hb : (v == k) = false := beq_false_of_ne h
      simp only [List.lookup, hb]
      simp [keysOf, h] at ih ⊢
      exact ih

theorem lookup_blanks {xs : List String} {keys : List String} {v : String}
    (hv : v ∈ xs) (hk : v ∉ keys) :
    (xs.filterMap (fun w => if keys.contains w then none else some (w, ""))).lookup v
      = some "" := by
  induction xs with
  | nil => simp at hv
  | cons x t ih =>
    by_cases hx : v = x
    · subst hx
      rw [List.filterMap_cons]
      rw [if_neg (by simpa [List.elem_iff] using hk)]
      simp [List.lookup]
    · rw [List.filterMap_cons]
      rcases List.mem_cons.mp hv with h | h
      · exact absurd h hx
      · split
        · exact ih h
        · rename_i b hb
          have hbk : b = (x, "") := by
            by_cases hc : keys.contains x = true
            · rw [if_pos hc] at hb; exact absurd hb (by simp)
            · rw [if_neg hc] at hb; simpa using hb.symm
          subst hbk
          have hbeq : (v == x) = false := beq_false_of_ne hx
          simp only [List.lookup, hbeq]
          exact ih h

/-- Binds every placeholder of `s` that is absent from `data` to the
empty string, appended after `data`. -/
def fillMissing (s : String) (data : List (String × String)) :
    List (String × String) :=
  data ++ (extract_variables s).filterMap
    (fun v => if (keysOf data).contains v then none else some (v, ""))

theorem render_fillMissing (s : String) (data : List (String × String)) :
    render s data = render s (fillMissing s data) := by
  unfold render
  congr 1
  apply List.map_congr_left
  intro t ht
  cases t with
  | lit c => rfl
  | var v =>
    simp only
    have hv : v ∈ extract_variables s :=
      mem_extract_iff_mem_tokVars.mpr (by
        simp [tokVars, List.mem_filterMap]
        exact ⟨Tok.var v, ht, rfl⟩)
    by_cases hk : v ∈ keysOf data
    · have hlook : ∃ x, data.lookup v = some x := by
        rcases hcase : data.lookup v with _ | x
        · exact absurd (lookup_eq_none_iff.mp hcase) (by simpa using hk)
        · exact ⟨x, rfl⟩
      obtain ⟨x, hx⟩ := hlook
      rw [fillMissing, lookup_append, hx]
    · have h1 : data.lookup v = none := lookup_eq_none_iff.mpr hk
      have h2 := @lookup_blanks (extract_variables s) (keysOf data) v hv hk
      rw [fillMissing, lookup_append, h1, h2]
      rfl

theorem validate_missing_mem (s : String) (d : List (String × String)) (v : String) :
    v ∈ (validate_variables s d).2 ↔ v ∈ extract_variables s ∧ v ∉ keysOf d := by
  simp [validate_variables, List.mem_filter, List.elem_iff]

theorem validate_ok_iff (s : String) (d : List (String × String)) :
    (validate_variables s d).1 = true ↔ ∀ v ∈ extract_variables s, v ∈ keysOf d := by
  simp only [validate_variables, List.isEmpty_iff, List.filter_eq_nil_iff]
  constructor
  · intro h v hv
    have := h v hv
    simpa [List.elem_iff] using this
  · intro h v hv
    simpa [List.elem_iff] using h v hv

theorem validate_extra_keys (s : String) (d extra : List (String × String))
    (h : ∀ p ∈ extra, p.1 ∉ extract_variables s) :
    validate_variables s (d ++ extra) = validate_variables s d := by
  simp only [validate_variables]
  have hfilter :
      (extract_variables s).filter (fun v => !((keysOf (d ++ extra)).contains v))
        = (extract_variables s).filter (fun v => !((keysOf d).contains v)) := by
    apply List.filter_congr
    intro v hv
    have hvex : v ∉ keysOf extra := by
      intro hmem
      simp only [keysOf, List.mem_map] at hmem
      obtain ⟨p, hp, hpv⟩ := hmem
      exact h p hp (hpv ▸ hv)
    have hc : (keysOf (d ++ extra)).contains v = (keysOf d).contains v := by
      have happ : keysOf (d ++ extra) = keysOf d ++ keysOf extra := by
        simp [keysOf]
      rw [happ]
      by_cases hd : v ∈ keysOf d
      · simp [List.elem_iff, hd]
      · simp [List.elem_iff, hd, hvex]
    rw [hc]
  rw [hfilter]

/-! ## Python numerals

`update_template` produces version strings with `f"{major}.{minor}.{patch+1}"`
and parses them with `map(int, version.split('.'))`.  We model `str(int)`
(`natStr`/`intStr`) and `int(str)` (`pyIntL`: optional surrounding ASCII
whitespace, optional sign, decimal digits with single underscore
separators; CPython additionally accepts non-ASCII digits and whitespace,
which never occur in version strings). -/

/-- Decimal digits of `n`, most significant first, with fuel (fuel `≥ n`
always suffices). -/
def natDigitsF : Nat → Nat → List Char
  | 0, n => [Nat.digitChar (n % 10)]
  | f + 1, n =>
    if n < 10 then [Nat.digitChar n]
    else natDigitsF f (n / 10) ++ [Nat.digitChar (n % 10)]

/-- Decimal digits of `n`, most significant first. -/
def natDigits (n : Nat) : List Char := natDigitsF n n

/-- Embeds Python `str` on a non-negative int. -/
def natStr (n : Nat) : String := String.mk (natDigits n)

/-- Embeds Python `str` on an int. -/
def intStr (i : Int) : String :=
  if i < 0 then "-" ++ natStr i.natAbs else natStr i.natAbs

/-- Numeric value of a digit character. -/
def digitVal (c : Char) : Nat := c.toNat - 48

/-- Value of a most-significant-first digit list. -/
def digitsVal (l : List Char) : Nat :=
  l.foldl (fun a c => a * 10 + digitVal c) 0

/-- After the first digit, Python `int` accepts digits with single
underscores strictly between digits. -/
def underscoreTail : List Char → Bool
  | [] => true
  | c :: r =>
    if c = '_' then
      match r with
      | [] => false
      | d :: r2 => d.isDigit && underscoreTail r2
    else c.isDigit && underscoreTail r

/-- Digit-part syntax of a Python int literal (after sign removal). -/
def pyDigitsOK : List Char → Bool
  | [] => false
  | c :: r => c.isDigit && underscoreTail r

/-- Parses the unsigned digit part of a Python int, underscores removed. -/
def parseUDigits (l : List Char) : Option Nat :=
  if pyDigitsOK l then some (digitsVal (l.filter (fun c => c != '_'))) else none

/-- ASCII whitespace stripped by Python `int(str)`. -/
def isPySpace (c : Char) : Bool :=
  c = ' ' || c = '\t' || c = '\n' || c = '\r' || c = '\x0b' || c = '\x0c'

/-- Strips whitespace from both ends, as `int()` does before parsing. -/
def stripWS (l : List Char) : List Char :=
  ((l.dropWhile isPySpace).reverse.dropWhile isPySpace).reverse

/-- Sign handling of Python `int(s)` after whitespace stripping. -/
def pySigned : List Char → Option Int
  | [] => none
  | c :: r =>
    if c = '+' then (parseUDigits r).map (fun n => (n : Int))
    else if c = '-' then (parseUDigits r).map (fun n => -(n : Int))
    else (parseUDigits (c :: r)).map (fun n => (n : Int))

/-- Embeds Python `int(s)` (ASCII, decimal): `some` value, or `none` when
`int` raises `ValueError`. -/
def pyIntL (l : List Char) : Option Int := pySigned (stripWS l)

/-- Embeds `version.split('.')` on the character level: split on every
dot, keeping empty chunks. -/
def splitDots : List Char → List (List Char)
  | [] => [[]]
  | c :: r =>
    if c = '.' then [] :: splitDots r
    else
      match splitDots r with
      | [] => [[c]]
      | h :: t => (c :: h) :: t

/-- Unpacks exactly three dot-separated components as Python ints. -/
def pyTriple : List (List Char) → Option (Int × Int × Int)
  | [a, b, c] =>
    match pyIntL a, pyIntL b, pyIntL c with
    | some x, some y, some z => some (x, y, z)
    | _, _, _ => none
  | _ => none

/-- Embeds `major, minor, patch = map(int, version.split('.'))`: `none`
models the `ValueError` raised on a wrong number of components or a
non-numeric component. -/
def pyParseVersion (s : String) : Option (Int × Int × Int) :=
  pyTriple (splitDots s.data)

/-- Embeds the version-increment step of `TemplateService.update_template`:
parse the current version, increment the patch component, and fall back
to `"1.0.1"` when parsing fails. -/
def bumpVersion (v : String) : String :=
  match pyParseVersion v with
  | some (ma, mi, pa) => intStr ma ++ "." ++ intStr mi ++ "." ++ intStr (pa + 1)
  | none => "1.0.1"

example : bumpVersion "1.0.0" = "1.0.1" := by decide

example : bumpVersion "2.3.9" = "2.3.10" := by decide

example : bumpVersion "not-semver" = "1.0.1" := by decide

/-! ### Numeral lemmas -/

theorem digitChar_isDigit {m : Nat} (h : m < 10) :
    (Nat.digitChar m).isDigit = true := by
  interval_cases m <;> decide

theorem digitChar_val {m : Nat} (h : m < 10) :
    digitVal (Nat.digitChar m) = m := by
  interval_cases m <;> decide

theorem natDigitsF_digits : ∀ f n, ∀ c ∈ natDigitsF f n, c.isDigit = true := by
  intro f
  induction f with
  | zero =>
    intro n c hc
    simp only [natDigitsF, List.mem_singleton] at hc
    subst hc
    exact digitChar_isDigit (Nat.mod_lt _ (by norm_num))
  | succ f ih =>
    intro n c hc
    simp only [natDigitsF] at hc
    split at hc
    · simp only [List.mem_singleton] at hc
      subst hc
      exact digitChar_isDigit (by omega)
    · rcases List.mem_append.mp hc with h | h
      · exact ih _ c h
      · simp only [List.mem_singleton] at h
        subst h
        exact digitChar_isDigit (Nat.mod_lt _ (by norm_num))

theorem natDigitsF_ne_nil (f n : Nat) : natDigitsF f n ≠ [] := by
  cases f with
  | zero => simp [natDigitsF]
  | succ f =>
    simp only [natDigitsF]
    split
    · simp
    · simp

theorem digitsVal_append (l : List Char) (c : Char) :
    digitsVal (l ++ [c]) = 10 * digitsVal l + digitVal c := by
  simp [digitsVal, List.foldl_append]
  ring

theorem digitsVal_natDigitsF : ∀ f n, n ≤ f → digitsVal (natDigitsF f n) = n := by
  intro f
  induction f with
  | zero =>
    intro n hn
    interval_cases n
    decide
  | succ f ih =>
    intro n hn
    simp only [natDigitsF]
    split
    · rename_i h
      simp [digitsVal]
      exact digitChar_val h
    · rename_i h
      rw [digitsVal_append, ih (n / 10) (by omega)]
      rw [digitChar_val (Nat.mod_lt _ (by norm_num))]
      omega

theorem digit_ne {c d : Char} (h : c.isDigit = true) (hd : d.isDigit = false) :
    ¬ c = d := by
  intro hx
  subst hx
  rw [h] at hd
  exact Bool.noConfusion hd

theorem digit_char_facts {c : Char} (h : c.isDigit = true) :
    (c != '_') = true ∧ (c = '+') = False ∧ (c = '-') = False ∧
      isPySpace c = false ∧ (c = '.') = False := by
  refine ⟨?_, ?_, ?_, ?_, ?_⟩
  · simpa using digit_ne h (by decide)
  · simp only [eq_iff_iff, iff_false]
    exact digit_ne h (by decide)
  · simp only [eq_iff_iff, iff_false]
    exact digit_ne h (by decide)
  · have e1 : decide (c = ' ') = false := decide_eq_false (digit_ne h (by decide))
    have e2 : decide (c = '\t') = false := decide_eq_false (digit_ne h (by decide))
    have e3 : decide (c = '\n') = false := decide_eq_false (digit_ne h (by decide))
    have e4 : decide (c = '\r') = false := decide_eq_false (digit_ne h (by decide))
    have e5 : decide (c = '\x0b') = false := decide_eq_false (digit_ne h (by decide))
    have e6 : decide (c = '\x0c') = false := decide_eq_false (digit_ne h (by decide))
    simp [isPySpace, e1, e2, e3, e4, e5, e6]
  · simp only [eq_iff_iff, iff_false]
    exact digit_ne h (by decide)

theorem underscoreTail_of_digits {l : List Char}
    (h : ∀ c ∈ l, c.isDigit = true) : underscoreTail l = true := by
  induction l with
  | nil => rfl
  | cons c r ih =>
    have hc := h c (by simp)
    have hne : ¬ c = '_' := digit_ne hc (by decide)
    cases r with
    | nil =>
      have hstep : underscoreTail [c]
          = (if c = '_' then false else c.isDigit && underscoreTail []) := rfl
      rw [hstep, if_neg hne, hc]
      rfl
    | cons d r2 =>
      have hstep : underscoreTail (c :: d :: r2)
          = (if c = '_' then d.isDigit && underscoreTail r2
             else c.isDigit && underscoreTail (d :: r2)) := rfl
      rw [hstep, if_neg hne, hc, ih (fun x hx => h x (by simp [hx]))]
      rfl

theorem stripWS_of_digits {l : List Char}
    (h : ∀ c ∈ l, c.isDigit = true) : stripWS l = l := by
  have hdrop : ∀ (m : List Char), (∀ c ∈ m, c.isDigit = true) →
      m.dropWhile isPySpace = m := by
    intro m hm
    cases m with
    | nil => rfl
    | cons c r =>
      rw [List.dropWhile_cons]
      rw [if_neg (by simp [(digit_char_facts (hm c (by simp))).2.2.2.1])]
  unfold stripWS
  rw [hdrop l h]
  rw [hdrop l.reverse (fun c hc => h c (List.mem_reverse.mp hc))]
  exact List.reverse_reverse l

theorem pySigned_digits {l : List Char} (hne : l ≠ [])
    (hd : ∀ c ∈ l, c.isDigit = true) :
    pySigned l = some ((digitsVal l : Nat) : Int) := by
  cases l with
  | nil => exact absurd rfl hne
  | cons c r =>
    have hc : c.isDigit = true := hd c (by simp)
    have hfacts := digit_char_facts hc
    simp only [pySigned]
    rw [if_neg (fun hx => (hfacts.2.1 ▸ hx : False))]
    rw [if_neg (fun hx => (hfacts.2.2.1 ▸ hx : False))]
    have hok : pyDigitsOK (c :: r) = true := by
      simp only [pyDigitsOK, hc, Bool.true_and]
      exact underscoreTail_of_digits (fun x hx => hd x (by simp [hx]))
    unfold parseUDigits
    rw [if_pos hok]
    have hfilter : (c :: r).filter (fun x => x != '_') = c :: r := by
      rw [List.filter_eq_self]
      intro a ha
      exact (digit_char_facts (hd a ha)).1
    rw [hfilter]
    rfl

theorem pyIntL_natDigits (n : Nat) : pyIntL (natDigits n) = some (n : Int) := by
  have hdigits : ∀ c ∈ natDigits n, c.isDigit = true := natDigitsF_digits n n
  unfold pyIntL
  rw [stripWS_of_digits hdigits]
  rw [pySigned_digits (show natDigits n ≠ [] from natDigitsF_ne_nil n n) hdigits]
  rw [show natDigits n = natDigitsF n n from rfl]
  rw [digitsVal_natDigitsF n n (le_refl n)]

theorem splitDots_no_dot {l : List Char} (h : ∀ c ∈ l, ¬ c = '.') :
    splitDots l = [l] := by
  induction l with
  | nil => rfl
  | cons c r ih =>
    simp only [splitDots]
    rw [if_neg (h c (by simp))]
    rw [ih (fun x hx => h x (by simp [hx]))]

theorem string_ext {a b : String} (h : a.data = b.data) : a = b := by
  cases a
  cases b
  exact congrArg String.mk h

theorem splitDots_cons_dot (r : List Char) :
    splitDots ('.' :: r) = [] :: splitDots r := by
  simp [splitDots]

theorem splitDots_cons_nodot {c : Char} (h : ¬ c = '.') (r : List Char) :
    splitDots (c :: r) =
      match splitDots r with
      | [] => [[c]]
      | hd :: t => (c :: hd) :: t := by
  simp only [splitDots]
  rw [if_neg h]

theorem pyParseVersion_ver (k : Nat) :
    pyParseVersion ("1.0." ++ natStr k) = some (1, 0, (k : Int)) := by
  have hdata : ("1.0." ++ natStr k).data = '1' :: '.' :: '0' :: '.' :: natDigits k := by
    rw [String.data_append]
    rfl
  have hnodot : ∀ c ∈ natDigits k, ¬ c = '.' := by
    intro c hc
    have h5 := (digit_char_facts (natDigitsF_digits k k c hc)).2.2.2.2
    exact fun hx => (h5 ▸ hx : False)
  have hsplit : splitDots ('1' :: '.' :: '0' :: '.' :: natDigits k)
      = [['1'], ['0'], natDigits k] := by
    rw [splitDots_cons_nodot (by decide), splitDots_cons_dot,
      splitDots_cons_nodot (by decide), splitDots_cons_dot,
      splitDots_no_dot hnodot]
  unfold pyParseVersion
  rw [hdata, hsplit]
  have h1 : pyIntL ['1'] = some 1 := by decide
  have h0 : pyIntL ['0'] = some 0 := by decide
  simp only [pyTriple, h1, h0, pyIntL_natDigits k]

theorem intStr_ofNat (m : Nat) : intStr (m : Int) = natStr m := by
  unfold intStr
  rw [if_neg (by omega)]
  simp

theorem bumpVersion_ver (k : Nat) :
    bumpVersion ("1.0." ++ natStr k) = "1.0." ++ natStr (k + 1) := by
  unfold bumpVersion
  rw [pyParseVersion_ver k]
  have h1 : ((1 : Int), (0 : Int), ((k : Nat) : Int)).2.2 + 1 = ((k + 1 : Nat) : Int) := by
    push_cast
    ring
  simp only []
  have h2 : ((k : Int) + 1) = ((k + 1 : Nat) : Int) := by push_cast; ring
  rw [h2, intStr_ofNat]
  apply string_ext
  simp only [String.data_append]
  have h3 : intStr 1 = "1" := by decide
  have h4 : intStr 0 = "0" := by decide
  rw [h3, h4]
  rfl

/-! ## Template store (`app/services/template_service.py`)

Rows become list entries in insertion order (`db.add` appends) and
SQLAlchemy `.first()` becomes `List.find?`.  Python truthiness of an
optional string (`if template_data.subject:`) is false for both `None`
and the empty string. -/

/-- Truthiness of an optional string in Python: `None` and `""` are falsy. -/
def pyTruthy (o : Option String) : Bool :=
  match o with
  | none => false
  | some s => !(s == "")

/-- A `template_versions` row (fields the service reads or writes). -/
structure TVersion where
  version : String
  subject : Option String
  body : String
  vars : List String
  is_current : Bool
deriving DecidableEq, Repr

/-- A `template_translations` row (fields the service reads or writes). -/
structure Translation where
  language_code : String
  subject : Option String
  body : String
  is_active : Bool
deriving DecidableEq, Repr

/-- A `templates` row with its owned versions and translations. -/
structure StoredTemplate where
  template_id : String
  name : String
  description : Option String
  type : String
  category : Option String
  is_active : Bool
  versions : List TVersion
  translations : List Translation
deriving DecidableEq, Repr

/-- The template table: rows in insertion order. -/
abbrev Store := List StoredTemplate

/-- The fields of `TemplateCreate` used by the service. -/
structure TemplateCreateData where
  template_id : String
  name : String
  description : Option String
  type : String
  category : Option String
  subject : Option String
  body : String
  language_code : String
deriving DecidableEq, Repr

/-- The fields of `TemplateUpdate` (all optional; `None` means absent). -/
structure TemplateUpdateData where
  name : Option String
  description : Option String
  is_active : Option Bool
  subject : Option String
  body : Option String
deriving DecidableEq, Repr

/-- The variable list the service derives for a body and optional
subject: `extract_variables(body)`, extended with the subject's variables
when the subject is truthy, then `list(set(...))`. -/
def derivedVariables (body : String) (subject : Option String) : List String :=
  (extract_variables body ++
    (if pyTruthy subject then extract_variables (subject.getD "") else [])).dedup

/-- The `Template`, `TemplateVersion` and `TemplateTranslation` rows that
`TemplateService.create_template` inserts on success. -/
def initialTemplate (td : TemplateCreateData) : StoredTemplate :=
  { template_id := td.template_id
    name := td.name
    description := td.description
    type := td.type
    category := td.category
    is_active := true
    versions := [{ version := "1.0.0"
                   subject := td.subject
                   body := td.body
                   vars := derivedVariables td.body td.subject
                   is_current := true }]
    translations := [{ language_code := td.language_code
                       subject := td.subject
                       body := td.body
                       is_active := true }] }

/-- Embeds `TemplateService.create_template`.  The duplicate check is
`query(Template).filter(Template.template_id == ...).first()` — note it
does NOT filter on `is_active`, so a soft-deleted row also triggers the
`ValueError`. -/
def create_template (store : Store) (td : TemplateCreateData) :
    Except String Store :=
  if ((store : List StoredTemplate).find?
      (fun t => t.template_id == td.template_id)).isSome then
    Except.error ("Template with ID '" ++ td.template_id ++ "' already exists")
  else
    Except.ok (store ++ [initialTemplate td])

/-- Embeds `TemplateService.get_template`: the first row with the given
`template_id` AND `is_active = True`; `none` otherwise. -/
def get_template (store : Store) (template_id : String) : Option StoredTemplate :=
  (store : List StoredTemplate).find?
    (fun t => t.template_id == template_id && t.is_active)

/-- Embeds `TemplateService.delete_template`: soft delete — flips
`is_active` to `False` on the active row found by `get_template`;
returns `false` (not found) when there is none. -/
def delete_template (store : Store) (template_id : String) : Bool × Store :=
  match get_template store template_id with
  | none => (false, store)
  | some _ =>
    (true,
      (store : List StoredTemplate).map
        (fun t => if t.template_id == template_id && t.is_active then
            { t with is_active := false } else t))

/-- Flips `is_current` to `False` on the first current version row, as
`current_version.is_current = False` does on the row returned by
`.first()`. -/
def flipFirstCurrent : List TVersion → List TVersion
  | [] => []
  | v :: vs =>
    if v.is_current then { v with is_current := false } :: vs
    else v :: flipFirstCurrent vs

/-- Embeds the body of `TemplateService.update_template` on the found
active template row: metadata fields mutate in place; when `body` or
`subject` is supplied, the first current version is de-flagged and a new
current version with the bumped version string is appended. -/
def applyUpdate (t : StoredTemplate) (u : TemplateUpdateData) : StoredTemplate :=
  let t1 := { t with
    name := u.name.getD t.name
    description := match u.description with
      | some d => some d
      | none => t.description
    is_active := u.is_active.getD t.is_active }
  let content_changed := u.body.isSome || u.subject.isSome
  if content_changed then
    match t1.versions.find? (fun v => v.is_current) with
    | none => t1
    | some cur =>
      let new_version_str := bumpVersion cur.version
      let new_body := u.body.getD cur.body
      let new_subject := match u.subject with
        | some s => some s
        | none => cur.subject
      { t1 with versions :=
          flipFirstCurrent t1.versions ++
            [{ version := new_version_str
               subject := new_subject
               body := new_body
               vars := derivedVariables new_body new_subject
               is_current := true }] }
  else t1

/-- Embeds `TemplateService.update_template` at the level of a single
template row: `none` models the early `return None` when `get_template`
finds no active row; updates are only reachable on an active row. -/
def update_template (t : StoredTemplate) (u : TemplateUpdateData) :
    Option StoredTemplate :=
  if t.is_active then some (applyUpdate t u) else none

/-- Applies a sequence of updates, each of which must succeed. -/
def applyUpdates (t : StoredTemplate) : List TemplateUpdateData →
    Option StoredTemplate
  | [] => some t
  | u :: us =>
    match update_template t u with
    | none => none
    | some t2 => applyUpdates t2 us

/-- A content-updating call: `update_data.body` or `update_data.subject`
is supplied. -/
def contentUpdate (u : TemplateUpdateData) : Bool :=
  u.body.isSome || u.subject.isSome

/-- Embeds the translation selection of `TemplateService.render_template`:
the first active translation row for the requested language, else the
first active row for `"en"`, else `none`. -/
def resolveTranslation (trs : List Translation) (language_code : String) :
    Option Translation :=
  match trs.find? (fun tr => tr.language_code == language_code && tr.is_active) with
  | some tr => some tr
  | none => trs.find? (fun tr => tr.language_code == "en" && tr.is_active)

/-- Result of `TemplateService.render_template`: `notAvailable` models
the `return None` paths (template missing/inactive, or no translation),
`missingVars` models the raised `ValueError`, `ok` the returned dict. -/
inductive RenderOutcome where
  | notAvailable : RenderOutcome
  | missingVars : List String → RenderOutcome
  | ok : Option String → String → List String → RenderOutcome
deriving DecidableEq, Repr

/-- The part of `TemplateService.render_template` after the template row
has been found: translation resolution, validation, and rendering. -/
def render_with_template (t : StoredTemplate)
    (data : List (String × String)) (language_code : String) : RenderOutcome :=
  match resolveTranslation t.translations language_code with
  | none => .notAvailable
  | some translation =>
    let v1 := validate_variables translation.body data
    if !v1.1 then .missingVars v1.2
    else
      let rendered_body := render translation.body data
      let variables_used := derivedVariables translation.body translation.subject
      if pyTruthy translation.subject then
        let subj := translation.subject.getD ""
        let v2 := validate_variables subj data
        if !v2.1 then .missingVars v2.2
        else .ok (some (render subj data)) rendered_body variables_used
      else .ok none rendered_body variables_used

/-- Embeds `TemplateService.render_template`. -/
def render_template (store : Store) (template_id : String)
    (data : List (String × String)) (language_code : String) : RenderOutcome :=
  match get_template store template_id with
  | none => .notAvailable
  | some t => render_with_template t data language_code

/-! ## Queue consumers (`app/workers/queue_consumer.py` of the email and
push services)

A delivery is resolved by `basic_ack` (ack), `basic_nack(requeue=True)`
(requeue) or `basic_nack(requeue=False)` (dead-letter).  The payload of a
delivery either fails `json.loads`, or parses as JSON but fails pydantic
model validation, or is valid and carries a `retry_count` read from the
message body.  Send processing returns a success boolean. -/

/-- How a consumer callback resolves one delivery. -/
inductive Resolution where
  | ack : Resolution
  | requeue : Resolution
  | deadLetter : Resolution
deriving DecidableEq, Repr

/-- The three payload shapes a callback can receive.  `valid` carries the
`retry_count` field embedded in the message body (a Python int). -/
inductive Payload where
  | invalidJson : Payload
  | schemaInvalid : Payload
  | valid : Int → Payload
deriving DecidableEq, Repr

/-- Embeds `EmailQueueConsumer.callback`: the whole body is wrapped in
one `try`; any exception (bad JSON or pydantic validation error) reaches
`except Exception` which nacks with `requeue=False`.  On a returned
failure, requeue iff `message.retry_count < 3`. -/
def emailCallback : Payload → Bool → Resolution
  | .invalidJson, _ => .deadLetter
  | .schemaInvalid, _ => .deadLetter
  | .valid rc, success =>
    if success then .ack
    else if rc < 3 then .requeue else .deadLetter

/-- Embeds `PushQueueConsumer.callback`: `json.JSONDecodeError` has its
own handler nacking with `requeue=False`, but a pydantic validation
error from `PushNotificationRequest(**message)` falls into the generic
`except Exception` handler, which nacks with `requeue=True`.  On a
returned failure, requeue iff `request.retry_count < 3`. -/
def pushCallback : Payload → Bool → Resolution
  | .invalidJson, _ => .deadLetter
  | .schemaInvalid, _ => .requeue
  | .valid rc, success =>
    if success then .ack
    else if rc < 3 then .requeue else .deadLetter

/-- Broker-side fate of one message. -/
inductive MsgFate where
  | queued : MsgFate
  | acked : MsgFate
  | dead : MsgFate
deriving DecidableEq, Repr

/-- One broker delivery cycle: a queued message is delivered to the
callback and resolved; `requeue=True` puts the SAME body (hence the same
embedded `retry_count`) back on the queue. -/
def deliverOnce (cb : Payload → Bool → Resolution) (p : Payload)
    (success : Bool) : MsgFate → MsgFate
  | .queued =>
    match cb p success with
    | .ack => .acked
    | .requeue => .queued
    | .deadLetter => .dead
  | f => f

/-- Repeated deliveries of one message whose processing attempts give the
listed success values. -/
def runDeliveries (cb : Payload → Bool → Resolution) (p : Payload)
    (succs : List Bool) : MsgFate :=
  succs.foldl (fun f b => deliverOnce cb p b f) .queued

/-! ## Circuit-breaker publisher (`app/utils/rabbitmq.py`)

`RabbitMQClient.publish_event` is decorated with tenacity
`@retry(stop=stop_after_attempt(3), wait=wait_exponential(...))` and its
body wraps the send closure in `@self.circuit_breaker`
(`pybreaker.CircuitBreaker(fail_max=5, reset_timeout=60)`) inside
`try: ... except Exception: return False`.  pybreaker semantics: the
closed state counts consecutive failures and trips to open once the
counter reaches `fail_max`; the open state raises `CircuitBreakerError`
without calling the wrapped function until `reset_timeout` seconds have
passed since it opened, then allows one half-open trial whose success
closes the breaker (counter reset) and whose failure re-opens it with a
fresh `opened_at`.  A success in the closed state resets the counter. -/

def fail_max : Nat := 5

def reset_timeout : Nat := 60

/-- pybreaker breaker state: closed with a consecutive-failure counter,
or open since `opened_at` (half-open is the transient trial inside a
call). -/
inductive BreakerState where
  | closed : Nat → BreakerState
  | opened : Nat → BreakerState
deriving DecidableEq, Repr

/-- Outcome of guarding one send through the breaker: whether the
underlying send was attempted, whether the guarded call succeeded (a
raise — original exception or `CircuitBreakerError` — is `false`), and
the breaker state afterwards. -/
structure BreakerCall where
  attempted : Bool
  success : Bool
  state : BreakerState
deriving DecidableEq, Repr

/-- One guarded call through `pybreaker.CircuitBreaker` at time `now`,
where `sendFails` says whether the underlying send would raise. -/
def breakerCall (s : BreakerState) (now : Nat) (sendFails : Bool) : BreakerCall :=
  match s with
  | .closed n =>
    if sendFails then
      if fail_max ≤ n + 1 then ⟨true, false, .opened now⟩
      else ⟨true, false, .closed (n + 1)⟩
    else ⟨true, true, .closed 0⟩
  | .opened t =>
    if now < t + reset_timeout then ⟨false, false, .opened t⟩
    else if sendFails then ⟨true, false, .opened now⟩
    else ⟨true, true, .closed 0⟩

/-- Folds a list of `(now, sendFails)` calls through the breaker. -/
def runBreaker (s : BreakerState) (calls : List (Nat × Bool)) : BreakerState :=
  calls.foldl (fun st c => (breakerCall st c.1 c.2).state) s

/-- Result of one `publish_event` call: the returned boolean, the breaker
state afterwards, and how many underlying send attempts were made. -/
structure PublishResult where
  returned : Bool
  state : BreakerState
  sends : Nat
deriving DecidableEq, Repr

/-- The body of `publish_event` (inside the tenacity decorator): calls
the breaker-guarded send in `try: ... except Exception: return False`,
so it never raises — any exception becomes a `False` return. -/
def publish_event_body (s : BreakerState) (now : Nat) (sendFails : Bool) :
    PublishResult :=
  let r := breakerCall s now sendFails
  ⟨r.success, r.state, if r.attempted then 1 else 0⟩

/-- Embeds tenacity `retry(stop=stop_after_attempt(n + 1))` around a call
that threads state and may raise: it re-calls only when the wrapped call
raises, up to the attempt budget. -/
def tenacityRun {σ : Type} (f : σ → σ × Except String Bool) :
    Nat → σ → σ × Except String Bool
  | 0, s => f s
  | n + 1, s =>
    match f s with
    | (s2, Except.ok b) => (s2, Except.ok b)
    | (s2, Except.error _) => tenacityRun f n s2

/-- Embeds `publish_event`: tenacity (3 attempts) around the
exception-swallowing body.  Returns the caller-visible boolean, the final
breaker state, and the total number of underlying send attempts. -/
def publish_event (s : BreakerState) (now : Nat) (sendFails : Bool) :
    Bool × BreakerState × Nat :=
  let f : (BreakerState × Nat) → (BreakerState × Nat) × Except String Bool :=
    fun st =>
      let r := publish_event_body st.1 now sendFails
      ((r.state, st.2 + r.sends), Except.ok r.returned)
  match tenacityRun f 2 (s, 0) with
  | ((st, cnt), Except.ok b) => (b, st, cnt)
  | ((st, cnt), Except.error _) => (false, st, cnt)

/-! ## Versioning invariant lemmas -/

/-- The version strings of the rows flagged `is_current`. -/
def currentVersionStrings (t : StoredTemplate) : List String :=
  (t.versions.filter (fun v => v.is_current)).map (fun v => v.version)

theorem filter_flipFirstCurrent (vs : List TVersion) :
    (flipFirstCurrent vs).filter (fun v => v.is_current)
      = (vs.filter (fun v => v.is_current)).drop 1 := by
  induction vs with
  | nil => rfl
  | cons v t ih =>
    by_cases h : v.is_current
    · simp [flipFirstCurrent, h, List.filter_cons]
    · simp [flipFirstCurrent, h, List.filter_cons, ih]

theorem applyUpdate_versions_current {t : StoredTemplate}
    {u : TemplateUpdateData} {k : Nat}
    (hc : contentUpdate u = true)
    (hinv : currentVersionStrings t = ["1.0." ++ natStr k]) :
    currentVersionStrings (applyUpdate t u) = ["1.0." ++ natStr (k + 1)] := by
  unfold currentVersionStrings at hinv
  have hfl : ∃ cur, t.versions.filter (fun v => v.is_current) = [cur] ∧
      cur.version = "1.0." ++ natStr k := by
    cases hf : t.versions.filter (fun v => v.is_current) with
    | nil => rw [hf] at hinv; simp at hinv
    | cons a rest =>
      rw [hf] at hinv
      simp only [List.map_cons, List.cons.injEq] at hinv
      have hrest : rest = [] := by
        cases rest with
        | nil => rfl
        | cons b r2 => simp at hinv
      subst hrest
      exact ⟨a, rfl, hinv.1⟩
  obtain ⟨cur, hfil, hver⟩ := hfl
  have hfind : t.versions.find? (fun v => v.is_current) = some cur := by
    rw [← List.filter_head?, hfil]
    rfl
  have hcond : (u.body.isSome || u.subject.isSome) = true := hc
  unfold applyUpdate
  simp only [hcond, if_true]
  rw [hfind]
  unfold currentVersionStrings
  simp [List.filter_append, filter_flipFirstCurrent, hfil, List.filter_cons]
  rw [hver, bumpVersion_ver]

theorem applyUpdates_inv (us : List TemplateUpdateData) :
    ∀ (t : StoredTemplate) (k : Nat),
    (∀ u ∈ us, contentUpdate u = true) →
    currentVersionStrings t = ["1.0." ++ natStr k] →
    ∀ final, applyUpdates t us = some final →
    currentVersionStrings final = ["1.0." ++ natStr (k + us.length)] := by
  induction us with
  | nil =>
    intro t k _ hinv final hfin
    simp only [applyUpdates, Option.some.injEq] at hfin
    subst hfin
    simpa using hinv
  | cons u rest ih =>
    intro t k hall hinv final hfin
    simp only [applyUpdates] at hfin
    cases hup : update_template t u with
    | none => rw [hup] at hfin; exact absurd hfin (by simp)
    | some t2 =>
      rw [hup] at hfin
      have ht2 : t2 = applyUpdate t u := by
        unfold update_template at hup
        split at hup
        · simpa using hup.symm
        · exact absurd hup (by simp)
      have hstep := applyUpdate_versions_current (hall u (by simp)) hinv
      have hrec := ih t2 (k + 1) (fun x hx => hall x (by simp [hx]))
        (by rw [ht2]; exact hstep) final hfin
      have harith : k + 1 + rest.length = k + (rest.length + 1) := by omega
      rw [hrec, harith]
      simp

theorem runDeliveries_requeue {cb : Payload → Bool → Resolution} {p : Payload}
    (h : cb p false = .requeue) :
    ∀ n, runDeliveries cb p (List.replicate n false) = .queued := by
  intro n
  induction n with
  | zero => rfl
  | succ n ih =>
    have hrep : List.replicate (n + 1) false = false :: List.replicate n false :=
      List.replicate_succ false (n + 1 - 1) ▸ rfl
    simp only [runDeliveries, List.replicate_succ, List.foldl_cons]
    have hstep : deliverOnce cb p false .queued = .queued := by
      simp [deliverOnce, h]
    rw [hstep]
    exact ih

/-! ## Claim theorems -/

/-- C1: for every template and every sequence of successful
content-updating `update` calls, exactly one `TemplateVersion` is
current after each call, and the current version string advances
`1.0.0 → 1.0.1 → 1.0.2 → …` (each new string is the prior current string
with the patch component incremented); when the prior string does not
parse as `major.minor.patch` the next string is exactly `"1.0.1"`. -/
theorem C1_versioning (td : TemplateCreateData) (us : List TemplateUpdateData)
    (hall : ∀ u ∈ us, contentUpdate u = true)
    (final : StoredTemplate)
    (hfinal : applyUpdates (initialTemplate td) us = some final) :
    currentVersionStrings final = ["1.0." ++ natStr us.length] ∧
    (final.versions.filter (fun v => v.is_current)).length = 1 ∧
    (∀ v, pyParseVersion v = none → bumpVersion v = "1.0.1") := by
  have hbase : currentVersionStrings (initialTemplate td) = ["1.0." ++ natStr 0] := by
    simp [currentVersionStrings, initialTemplate, List.filter_cons]
    decide
  have h := applyUpdates_inv us (initialTemplate td) 0 hall hbase final hfinal
  rw [Nat.zero_add] at h
  refine ⟨h, ?_, ?_⟩
  · have hlen := congrArg List.length h
    simpa [currentVersionStrings] using hlen
  · intro v hv
    unfold bumpVersion
    rw [hv]

/-- C1 witness: creating a template and applying one body update yields
current version `1.0.1`. -/
def tdW : TemplateCreateData :=
  { template_id := "welcome_email", name := "Welcome", description := none
    type := "email", category := none, subject := none
    body := "Hi {{name}}", language_code := "en" }

/-- The single content update used by the C1 witness. -/
def updW : TemplateUpdateData :=
  { name := none, description := none, is_active := none, subject := none
    body := some "Hi {{name}} {{surname}}" }

theorem C1_versioning_witness :
    (∀ u ∈ [updW], contentUpdate u = true) ∧
    applyUpdates (initialTemplate tdW) [updW]
      = some (applyUpdate (initialTemplate tdW) updW) ∧
    currentVersionStrings (applyUpdate (initialTemplate tdW) updW)
      = ["1.0." ++ natStr 1] := by
  refine ⟨by decide, by decide, ?_⟩
  exact (C1_versioning tdW [updW] (by decide)
    (applyUpdate (initialTemplate tdW) updW) (by decide)).1

/-- C2: each consumer requeues a failed delivery only while the
`retry_count` read from the message body is below 3 and dead-letters at
`retry_count = 3` — but because `requeue=True` redelivers the same body,
`retry_count` never advances, so a failing message carrying
`retry_count = 0` is requeued on every delivery and is never
dead-lettered: the claimed bound of `max_retries` redeliveries is
violated. -/
theorem C2_retry_bound_violated :
    (∀ n, runDeliveries emailCallback (.valid 0) (List.replicate n false) = .queued) ∧
    (∀ n, runDeliveries pushCallback (.valid 0) (List.replicate n false) = .queued) ∧
    emailCallback (.valid 0) false = .requeue ∧
    pushCallback (.valid 0) false = .requeue ∧
    emailCallback (.valid 3) false = .deadLetter ∧
    pushCallback (.valid 3) false = .deadLetter := by
  refine ⟨runDeliveries_requeue (by decide), runDeliveries_requeue (by decide),
    by decide, by decide, by decide, by decide⟩

/-- C3: the Jinja2 environment of `TemplateRenderer` is built without
`StrictUndefined`, so `render` on a template with a missing variable
succeeds and silently substitutes the empty string instead of raising
the missing-variable error that the spec (and the repository's own test
`test_render_with_missing_variable`) requires. -/
theorem C3_render_missing_silently_blank :
    flatOnly "Hello {{name}}!" = true ∧
    extract_variables "Hello {{name}}!" = ["name"] ∧
    keysOf [] = [] ∧
    render "Hello {{name}}!" [] = "Hello !" := by decide

instance instDecEqExcept {ε α : Type} [DecidableEq ε] [DecidableEq α] :
    DecidableEq (Except ε α) := fun a b =>
  match a, b with
  | .ok x, .ok y =>
    if h : x = y then .isTrue (by rw [h])
    else .isFalse (fun hc => h (by injection hc))
  | .error x, .error y =>
    if h : x = y then .isTrue (by rw [h])
    else .isFalse (fun hc => h (by injection hc))
  | .ok _, .error _ => .isFalse (fun hc => Except.noConfusion hc)
  | .error _, .ok _ => .isFalse (fun hc => Except.noConfusion hc)

/-- Creation data for the C4 failing input. -/
def tdC4 : TemplateCreateData :=
  { template_id := "t1", name := "Test", description := none
    type := "email", category := none, subject := none
    body := "Test", language_code := "en" }

/-- The store after creating `t1` and soft-deleting it. -/
def storeC4 : Store := (delete_template [initialTemplate tdC4] "t1").2

/-- C4: `create_template`'s duplicate check does not filter on
`is_active`, so after soft-deleting the only `t1` template (no active
`t1` row remains — `get_template` returns `none`), re-creating `t1`
still fails with the duplicate-id error, although the claim (and the
partial unique index migration) says soft-deleted ids are reusable. -/
theorem C4_soft_deleted_blocks_create :
    create_template [] tdC4 = Except.ok [initialTemplate tdC4] ∧
    (delete_template [initialTemplate tdC4] "t1").1 = true ∧
    get_template storeC4 "t1" = none ∧
    (∀ t ∈ storeC4, t.is_active = false) ∧
    create_template storeC4 tdC4
      = Except.error "Template with ID 't1' already exists" := by
  decide

/-- C5: rendering uses the first active translation for the requested
language when one exists; otherwise the first active `"en"` translation
when one exists; otherwise translation resolution fails and
`render_template` reports the absence value.  There is no further
fallback: an active `"es"` translation does not serve a request for
`"es-MX"`. -/
theorem C5_translation_fallback (trs : List Translation) (lang : String) :
    (∀ tr, resolveTranslation trs lang = some tr →
      tr.is_active = true ∧ (tr.language_code = lang ∨ tr.language_code = "en")) ∧
    ((∃ tr ∈ trs, tr.language_code = lang ∧ tr.is_active = true) →
      ∃ tr, resolveTranslation trs lang = some tr ∧
        tr.language_code = lang ∧ tr.is_active = true) ∧
    ((∀ tr ∈ trs, ¬(tr.language_code = lang ∧ tr.is_active = true)) →
      (∃ tr ∈ trs, tr.language_code = "en" ∧ tr.is_active = true) →
      ∃ tr, resolveTranslation trs lang = some tr ∧
        tr.language_code = "en" ∧ tr.is_active = true) ∧
    ((∀ tr ∈ trs, ¬(tr.language_code = lang ∧ tr.is_active = true)) →
      (∀ tr ∈ trs, ¬(tr.language_code = "en" ∧ tr.is_active = true)) →
      resolveTranslation trs lang = none) ∧
    (∀ (store : Store) (id : String) (data : List (String × String)) (t : StoredTemplate),
      get_template store id = some t →
      resolveTranslation t.translations lang = none →
      render_template store id data lang = RenderOutcome.notAvailable) ∧
    resolveTranslation
      [{ language_code := "es", subject := none, body := "Hola {{name}}",
         is_active := true }] "es-MX" = none := by
  refine ⟨?_, ?_, ?_, ?_, ?_, by decide⟩
  · intro tr hres
    unfold resolveTranslation at hres
    cases h1 : trs.find? (fun x => x.language_code == lang && x.is_active) with
    | some a =>
      rw [h1] at hres
      simp only [Option.some.injEq] at hres
      subst hres
      have := List.find?_some h1
      simp only [Bool.and_eq_true, beq_iff_eq] at this
      exact ⟨this.2, Or.inl this.1⟩
    | none =>
      rw [h1] at hres
      have := List.find?_some hres
      simp only [Bool.and_eq_true, beq_iff_eq] at this
      exact ⟨this.2, Or.inr this.1⟩
  · intro hex
    have hsome : (trs.find? (fun x => x.language_code == lang && x.is_active)).isSome := by
      rw [List.find?_isSome]
      obtain ⟨tr, htr, h1, h2⟩ := hex
      exact ⟨tr, htr, by simp [h1, h2]⟩
    cases h1 : trs.find? (fun x => x.language_code == lang && x.is_active) with
    | none => rw [h1] at hsome; simp at hsome
    | some a =>
      have hp := List.find?_some h1
      simp only [Bool.and_eq_true, beq_iff_eq] at hp
      refine ⟨a, ?_, hp.1, hp.2⟩
      unfold resolveTranslation
      rw [h1]
  · intro hno hen
    have h1 : trs.find? (fun x => x.language_code == lang && x.is_active) = none := by
      rw [List.find?_eq_none]
      intro x hx
      simp only [Bool.and_eq_true, beq_iff_eq]
      exact fun hc => hno x hx ⟨hc.1, hc.2⟩
    have hsome : (trs.find? (fun x => x.language_code == "en" && x.is_active)).isSome := by
      rw [List.find?_isSome]
      obtain ⟨tr, htr, ha, hb⟩ := hen
      exact ⟨tr, htr, by simp [ha, hb]⟩
    cases h2 : trs.find? (fun x => x.language_code == "en" && x.is_active) with
    | none => rw [h2] at hsome; simp at hsome
    | some a =>
      have hp := List.find?_some h2
      simp only [Bool.and_eq_true, beq_iff_eq] at hp
      refine ⟨a, ?_, hp.1, hp.2⟩
      unfold resolveTranslation
      rw [h1, h2]
  · intro hno hnoen
    unfold resolveTranslation
    have h1 : trs.find? (fun x => x.language_code == lang && x.is_active) = none := by
      rw [List.find?_eq_none]
      intro x hx
      simp only [Bool.and_eq_true, beq_iff_eq]
      exact fun hc => hno x hx ⟨hc.1, hc.2⟩
    have h2 : trs.find? (fun x => x.language_code == "en" && x.is_active) = none := by
      rw [List.find?_eq_none]
      intro x hx
      simp only [Bool.and_eq_true, beq_iff_eq]
      exact fun hc => hnoen x hx ⟨hc.1, hc.2⟩
    rw [h1, h2]
  · intro store id data t h1 h2
    unfold render_template
    rw [h1]
    show render_with_template t data lang = RenderOutcome.notAvailable
    unfold render_with_template
    rw [h2]

/-- Translations used by the C5 witness. -/
def trEs : Translation :=
  { language_code := "es", subject := none, body := "Hola {{name}}", is_active := true }

/-- English translation used by the C5 witness. -/
def trEn : Translation :=
  { language_code := "en", subject := none, body := "Hello {{name}}", is_active := true }

theorem C5_translation_fallback_witness :
    (∃ tr, resolveTranslation [trEs, trEn] "fr" = some tr ∧
      tr.language_code = "en" ∧ tr.is_active = true) ∧
    resolveTranslation [trEs] "fr" = none := by
  have h1 := C5_translation_fallback [trEs, trEn] "fr"
  have h2 := C5_translation_fallback [trEs] "fr"
  exact ⟨h1.2.2.1 (by decide) (by decide), h2.2.2.2.1 (by decide) (by decide)⟩

/-- C6: `validate_variables` returns `(ok, missing)` with `missing` the
extracted variables absent from the data's keys, `ok` true exactly when
nothing is missing (equivalently, when every extracted variable is a
key), and extra keys never affecting the result. -/
theorem C6_validate_variables (s : String) (d extra : List (String × String))
    (hextra : ∀ p ∈ extra, p.1 ∉ extract_variables s) :
    ((validate_variables s d).1 = true ↔ (validate_variables s d).2 = []) ∧
    (∀ v, v ∈ (validate_variables s d).2 ↔
      v ∈ extract_variables s ∧ v ∉ keysOf d) ∧
    ((validate_variables s d).1 = true ↔
      ∀ v ∈ extract_variables s, v ∈ keysOf d) ∧
    validate_variables s (d ++ extra) = validate_variables s d := by
  refine ⟨?_, validate_missing_mem s d, validate_ok_iff s d,
    validate_extra_keys s d extra hextra⟩
  simp [validate_variables, List.isEmpty_iff]

theorem C6_validate_variables_witness :
    validate_variables "Hi {{a}} {{b}}" ([("a", "1")] ++ [("c", "2")])
      = validate_variables "Hi {{a}} {{b}}" [("a", "1")] ∧
    (validate_variables "Hi {{a}} {{b}}" [("a", "1")]).1 = false := by
  refine ⟨(C6_validate_variables "Hi {{a}} {{b}}" [("a", "1")] [("c", "2")]
    (by decide)).2.2.2, by decide⟩

/-- C7 counterexample: a valid-JSON payload that violates the message
schema makes `PushNotificationRequest(**message)` raise, which lands in
the push consumer's generic `except Exception` handler — the message is
requeued, not rejected without requeue as the claim states. -/
theorem C7_push_schema_invalid_requeued :
    pushCallback Payload.schemaInvalid false = Resolution.requeue := by decide

/-- C7 (amended): the email consumer rejects both malformed-JSON and
schema-violating payloads without requeue; the push consumer rejects
malformed JSON without requeue but requeues schema-violating payloads
(they reach the generic exception handler, which requeues). -/
theorem C7_malformed_rejection :
    (∀ b, emailCallback .invalidJson b = .deadLetter) ∧
    (∀ b, emailCallback .schemaInvalid b = .deadLetter) ∧
    (∀ b, pushCallback .invalidJson b = .deadLetter) ∧
    (∀ b, pushCallback .schemaInvalid b = .requeue) := by decide

/-- C8: from a fresh breaker, `fail_max = 5` consecutive send failures
open the breaker; while open and within `reset_timeout = 60` of
`opened_at`, the underlying send is never attempted and `publish_event`
fails fast returning `False` with zero send attempts; once
`reset_timeout` has elapsed one trial call is attempted, whose success
closes the breaker (counter reset) and whose failure re-opens it with
the timeout restarted from `now`. -/
theorem C8_circuit_breaker (t1 t2 t3 t4 t5 t now : Nat) (fails : Bool) :
    runBreaker (.closed 0) [(t1, true), (t2, true), (t3, true), (t4, true), (t5, true)]
      = .opened t5 ∧
    (now < t + reset_timeout →
      breakerCall (.opened t) now fails = ⟨false, false, .opened t⟩ ∧
      publish_event (.opened t) now fails = (false, .opened t, 0)) ∧
    (t + reset_timeout ≤ now →
      (breakerCall (.opened t) now fails).attempted = true ∧
      breakerCall (.opened t) now false = ⟨true, true, .closed 0⟩ ∧
      breakerCall (.opened t) now true = ⟨true, false, .opened now⟩) := by
  refine ⟨?_, ?_, ?_⟩
  · simp [runBreaker, breakerCall, fail_max]
  · intro h
    constructor
    · simp [breakerCall, h]
    · simp [publish_event, tenacityRun, publish_event_body, breakerCall, h]
  · intro h
    have hnl : ¬ now < t + reset_timeout := by omega
    refine ⟨?_, by simp [breakerCall, hnl], by simp [breakerCall, hnl]⟩
    cases fails <;> simp [breakerCall, hnl]

theorem C8_circuit_breaker_witness :
    runBreaker (.closed 0) [(1, true), (2, true), (3, true), (4, true), (5, true)]
      = .opened 5 ∧
    breakerCall (.opened 100) 130 true = ⟨false, false, .opened 100⟩ ∧
    publish_event (.opened 100) 130 true = (false, .opened 100, 0) ∧
    breakerCall (.opened 100) 160 false = ⟨true, true, .closed 0⟩ ∧
    breakerCall (.opened 100) 160 true = ⟨true, false, .opened 160⟩ := by
  have h1 := C8_circuit_breaker 1 2 3 4 5 100 130 true
  have h2 := C8_circuit_breaker 1 2 3 4 5 100 160 true
  exact ⟨h1.1, (h1.2.1 (by norm_num [reset_timeout])).1,
    (h1.2.1 (by norm_num [reset_timeout])).2,
    (h2.2.2 (by norm_num [reset_timeout])).2.1,
    (h2.2.2 (by norm_num [reset_timeout])).2.2⟩

/-- C9: the `try/except` inside `publish_event` swallows every exception
and returns `False`, so the tenacity `@retry` decorator around it never
observes a failure: every `publish_event` call makes at most ONE
underlying send attempt (zero when the breaker is open), never the
claimed 3 backoff attempts; exhausted failure is reported as a `False`
return. -/
theorem C9_publish_single_attempt :
    (∀ (s : BreakerState) (now : Nat) (fails : Bool),
      (publish_event s now fails).2.2 ≤ 1) ∧
    publish_event (.closed 0) 0 true = (false, .closed 1, 1) ∧
    publish_event (.closed 0) 0 false = (true, .closed 0, 1) := by
  refine ⟨?_, by decide, by decide⟩
  intro s now fails
  simp only [publish_event, tenacityRun, publish_event_body]
  cases (breakerCall s now fails).attempted <;> simp

/-- C10: `render_template` returns the same absence value for a missing
or inactive template as for a template with no usable translation — the
caller cannot distinguish the two conditions from the result. -/
theorem C10_absence_indistinguishable (store : Store) (id : String)
    (data : List (String × String)) (lang : String) :
    (get_template store id = none →
      render_template store id data lang = RenderOutcome.notAvailable) ∧
    (∀ t, get_template store id = some t →
      resolveTranslation t.translations lang = none →
      render_template store id data lang = RenderOutcome.notAvailable) := by
  constructor
  · intro h
    unfold render_template
    rw [h]
  · intro t h1 h2
    unfold render_template
    rw [h1]
    show render_with_template t data lang = RenderOutcome.notAvailable
    unfold render_with_template
    rw [h2]

/-- An active template with no translations, for the C10 witness. -/
def tNoTr : StoredTemplate :=
  { template_id := "t2", name := "NoTr", description := none, type := "email"
    category := none, is_active := true, versions := [], translations := [] }

theorem C10_absence_indistinguishable_witness :
    render_template [] "t1" [] "en" = RenderOutcome.notAvailable ∧
    render_template [tNoTr] "t2" [] "en" = RenderOutcome.notAvailable := by
  exact ⟨(C10_absence_indistinguishable [] "t1" [] "en").1 (by decide),
    (C10_absence_indistinguishable [tNoTr] "t2" [] "en").2 tNoTr (by decide) (by decide)⟩

end Pipeline
